import Mathlib

/- Verification development for the canary-stt backend (FastAPI speech-to-text
   job scheduler).  The definitions below are a shallow embedding of the Python
   sources under src/backend/: main.py (job registry, HTTP endpoints, the
   background task process_transcription), transcription_service.py (the
   CanaryTranscriptionService with its model-load fallback chain and the
   audio-normalization fallback chain of preprocess_audio), and
   hardware_config.py (HardwareOptimizer.get_device_for_job).

   External libraries (librosa, pydub, ffmpeg, NeMo, transformers, soundfile)
   are modelled as oracles: an environment record fixes the outcome of each
   external call, and the embedded functions reproduce the control flow of the
   Python code over those outcomes.  Python floats for durations and
   confidences are modelled as rationals; all values appearing in the code
   (0.85, 0.95, len/sr) are exactly representable. -/

namespace CanarySTT

/- ## Device allocator: hardware_config.py -/

/-- GPUInfo dataclass (hardware_config.py lines 12-19).  is_available defaults
to True and is never written anywhere in the repository. -/
structure GPUInfo where
  index : Nat
  name : String
  total_memory_gb : Rat
  compute_capability : Nat × Nat
  is_available : Bool := true
  deriving DecidableEq

/-- HardwareOptimizer.get_device_for_job (hardware_config.py lines 293-304).
Python: with no devices return -1 (CPU); with one device return 0; otherwise
return hash(job_id) % len(self.gpu_devices).  The job hash is modelled as an
arbitrary Int (Python hash values can be negative; job_id None or empty gives
hash 0 at the call site).  Python % with a positive modulus agrees with
Int.emod, which Lean writes as %. -/
def getDeviceForJob (gpus : List GPUInfo) (jobHash : Int) : Int :=
  if gpus.length = 0 then -1
  else if gpus.length = 1 then 0
  else jobHash % (gpus.length : Int)

/-- A device marked not live (is_available = false), index 0. -/
def gpuDown : GPUInfo := ⟨0, "GPU0", 10, (8, 6), false⟩

/-- A live device, index 1. -/
def gpuUp : GPUInfo := ⟨1, "GPU1", 10, (8, 6), true⟩

/- ## Transcription service: transcription_service.py -/

/-- The value held by CanaryTranscriptionService.model after a load chain:
the NeMo SALM model, the transformers AutoModel fallback, or the string
"mock" (the development stub). -/
inductive LoadedModel
  | nemo
  | transformersAlt
  | mock
  deriving DecidableEq

/-- Process-lifetime environment for model loading: whether
SALM.from_pretrained succeeds (load_model, lines 24-56) and whether the
transformers AutoModel fallback succeeds (_load_model_alternative, lines
58-82).  Fixed for the lifetime of the process. -/
structure LoadEnv where
  nemoLoads : Bool
  transformersLoads : Bool
  deriving DecidableEq

/-- Tiers attempted, in order, by one run of load_model: tier 0 is the NeMo
SALM load; on failure tier 1 is the transformers fallback; on failure tier 2
installs the mock stub (which always succeeds).  load_model returns True on
every path. -/
def loadAttempts (e : LoadEnv) : List Nat :=
  if e.nemoLoads then [0] else if e.transformersLoads then [0, 1] else [0, 1, 2]

/-- The model held after the load chain of load_model. -/
def loadResult (e : LoadEnv) : LoadedModel :=
  if e.nemoLoads then .nemo
  else if e.transformersLoads then .transformersAlt
  else .mock

/-- Outcome of the subprocess.run ffmpeg call in preprocess_audio (lines
164-187).  The File variants record whether the external tool created the
_temp.wav output before finishing (ffmpeg with -y creates its output early,
so a failing or timed-out run can leave a partial file). -/
inductive FfmpegOutcome
  | okFile        -- returncode 0 and the output file exists
  | okNoFile      -- returncode 0 but no output file (line 181 branch)
  | failFile      -- nonzero returncode, partial output file left
  | failNoFile    -- nonzero returncode, no output file
  | timeoutFile   -- TimeoutExpired after a partial output file was created
  | timeoutNoFile -- TimeoutExpired, no output file
  | binMissing    -- FileNotFoundError: ffmpeg binary absent
  deriving DecidableEq

/-- Outcome of sf.write of the canonical output (line 200): ok creates the
file; okNoFile models the line 207 branch where no exception was raised but
the file is absent; the raised variants model an exception caught by the
outer handler at line 211, with or without a partial file on disk. -/
inductive SfWriteOutcome
  | ok
  | okNoFile
  | raisedFileCreated
  | raisedNoFile
  deriving DecidableEq

/-- Per-job environment for preprocess_audio (lines 84-222).  Each field
fixes the outcome of one external call; sample counts are at the 16 kHz
target rate, and none means the call raised. -/
structure PreprocessEnv where
  pathExists : Bool                  -- os.path.exists(audio_path), line 91
  librosaDirect : Option Nat         -- librosa.load on the input, line 106
  pydubImports : Bool                -- from pydub import ..., line 121
  pydubExports : Bool                -- AudioSegment load/convert/export, lines 127-144
  librosaOnPydubTemp : Option Nat    -- librosa.load on the pydub temp wav, line 149
  ffmpeg : FfmpegOutcome             -- subprocess.run ffmpeg, line 174
  librosaOnFfmpegTemp : Option Nat   -- librosa.load on the ffmpeg temp wav, line 178
  sfWrite : SfWriteOutcome           -- sf.write of the canonical output, line 200
  deriving DecidableEq

/-- What preprocess_audio leaves behind: the returned canonical output (with
its sample count) if any, whether the _temp.wav intermediate is still on
disk, and whether the _processed.wav output file is on disk. -/
structure PreprocessResult where
  processed : Option Nat
  tempLeft : Bool
  processedOnDisk : Bool
  deriving DecidableEq

/-- Lines 189-209: after some strategy decoded n samples (the temp file, if
one was used, has already been removed by line 150 or 179), reject empty
audio, normalize, and write the canonical output with sf.write. -/
def afterDecode (env : PreprocessEnv) (n : Nat) : PreprocessResult :=
  if n = 0 then ⟨none, false, false⟩
  else
    match env.sfWrite with
    | .ok => ⟨some n, false, true⟩
    | .okNoFile => ⟨none, false, false⟩
    | .raisedFileCreated => ⟨none, false, true⟩
    | .raisedNoFile => ⟨none, false, false⟩

/-- Lines 163-187, the ffmpeg last resort.  On returncode 0 with an output
file, librosa loads it and line 179 removes it; if that load raises, the
handler at line 185 returns None without removing the file.  On a nonzero
returncode or a timeout the code returns None without any removal, so a
partial output file stays on disk. -/
def ffmpegStage (env : PreprocessEnv) : PreprocessResult :=
  match env.ffmpeg with
  | .okFile =>
      match env.librosaOnFfmpegTemp with
      | some n => afterDecode env n
      | none => ⟨none, true, false⟩
  | .okNoFile => ⟨none, false, false⟩
  | .failFile => ⟨none, true, false⟩
  | .failNoFile => ⟨none, false, false⟩
  | .timeoutFile => ⟨none, true, false⟩
  | .timeoutNoFile => ⟨none, false, false⟩
  | .binMissing => ⟨none, false, false⟩

/-- preprocess_audio (lines 84-222): strategy 1 is a direct librosa decode;
on failure strategy 2 converts via pydub to _temp.wav and re-runs librosa on
it (the temp file is removed on both the success path, line 150, and the
failure path, lines 160-161); on failure strategy 3 shells out to ffmpeg.
An ImportError of pydub returns None before any temp file exists. -/
def preprocessAudio (env : PreprocessEnv) : PreprocessResult :=
  if ¬ env.pathExists then ⟨none, false, false⟩
  else
    match env.librosaDirect with
    | some n => afterDecode env n
    | none =>
      if ¬ env.pydubImports then ⟨none, false, false⟩
      else if env.pydubExports then
        match env.librosaOnPydubTemp with
        | some n => afterDecode env n
        | none => ffmpegStage env
      else ffmpegStage env

/-- The dictionary returned by transcribe_audio and stored as the job result:
keys transcription, confidence, duration, and the optional keys model (only
on success payloads) and error (only on failure payloads). -/
structure Payload where
  transcription : String
  confidence : Rat
  duration : Rat
  model : Option String
  errMsg : Option String
  deriving DecidableEq

/-- Per-job inference environment: the outcome of model.transcribe in
_real_transcription (line 282; none means it raised — for the transformers
AutoModel fallback it always raises, the object has no transcribe method)
and the outcome of librosa.load on the processed file (lines 275 and 299;
the same file is loaded by the real and the mock path, so one slot). -/
structure InferEnv where
  realTranscribe : Option String
  librosaOnProcessed : Option Nat
  deriving DecidableEq

/-- Whole per-job environment of one transcribe_audio call. -/
structure JobEnv where
  pre : PreprocessEnv
  infer : InferEnv
  isM4a : Bool
  deriving DecidableEq

/-- The stand-in for the long mock transcription text of line 315 (its exact
wording interpolates the file name and duration and bears on no claim). -/
def mockText : String := "Mock transcription placeholder"

/-- The mock success payload (lines 314-319): confidence 0.85 and model name
mock-canary-qwen-2.5b. -/
def mockSuccessPayload (d : Rat) : Payload :=
  ⟨mockText, 85 / 100, d, some "mock-canary-qwen-2.5b", none⟩

/-- _mock_transcription (lines 295-328): reload the processed audio with
librosa; on success return the mock payload with the measured duration, on
an exception return the failure payload whose transcription is the literal
string Transcription failed. -/
def mockRun (env : JobEnv) : Payload :=
  match env.infer.librosaOnProcessed with
  | some m => mockSuccessPayload ((m : Rat) / 16000)
  | none => ⟨"Transcription failed", 0, 0, none, some "librosa load error"⟩

/-- _real_transcription (lines 271-293): reload the processed audio, call
model.transcribe, and on success return confidence 0.95 and model name
nvidia/canary-qwen-2.5b; any exception falls back to _mock_transcription.
Only the NeMo model can transcribe; the transformers AutoModel fallback has
no transcribe method and always raises. -/
def realRun (m : LoadedModel) (env : JobEnv) : Payload :=
  match env.infer.librosaOnProcessed with
  | none => mockRun env
  | some n =>
    match m, env.infer.realTranscribe with
    | .nemo, some t => ⟨t, 95 / 100, (n : Rat) / 16000, some "nvidia/canary-qwen-2.5b", none⟩
    | _, _ => mockRun env

/-- The error raised at lines 234-237 when preprocessing returns None, as
caught and stringified by the handler at line 246.  The Python messages
interpolate the extension; the two fixed texts here keep just the m4a /
non-m4a distinction. -/
def preprocessFailMsg (isM4a : Bool) : String :=
  if isM4a then "M4A format is not supported without FFmpeg. Please convert to WAV or MP3 format."
  else "Audio preprocessing failed. Please try a different format (WAV, MP3 recommended)."

/-- Result of one CanaryTranscriptionService.transcribe_audio call: the
returned dictionary, the service model state afterwards, the load tiers
attempted during this call, and which normalization files are still on disk
after the finally block. -/
structure ServiceRun where
  payload : Payload
  model : Option LoadedModel
  attempts : List Nat
  tempLeft : Bool
  processedLeftAfter : Bool
  deriving DecidableEq

/-- The model in self.model once transcribe_audio has passed its load check
at line 227: the load chain runs only when the field is still None. -/
def modelAfter (st : Option LoadedModel) (le : LoadEnv) : LoadedModel :=
  match st with
  | none => loadResult le
  | some m0 => m0

/-- transcribe_audio (lines 224-269).  If self.model is None the load chain
runs (and always installs some model); preprocessing failure raises an
exception that the handler at line 246 converts into an error payload with
empty transcription, confidence 0.0 and duration 0.0; otherwise the mock or
real path produces the payload.  The finally block (lines 254-261) removes
the processed file only when processed_path is a non-None path, so a partial
canonical output left by a failed sf.write survives, as does any leftover
_temp.wav (which the finally block never touches). -/
def transcribeAudio (st : Option LoadedModel) (le : LoadEnv) (env : JobEnv) :
    ServiceRun :=
  let m := modelAfter st le
  let att := match st with
    | none => loadAttempts le
    | some _ => []
  let pre := preprocessAudio env.pre
  let payload := match pre.processed with
    | none => ⟨"", 0, 0, none, some (preprocessFailMsg env.isM4a)⟩
    | some _ => if m = .mock then mockRun env else realRun m env
  { payload := payload
    model := some m
    attempts := att
    tempLeft := pre.tempLeft
    processedLeftAfter := if pre.processed.isSome then false else pre.processedOnDisk }

/-- A sequence of jobs against one service instance: the per-job load-tier
attempt lists and the final model state.  The load environment is fixed for
the process lifetime. -/
def runJobs (le : LoadEnv) (st : Option LoadedModel) :
    List JobEnv → List (List Nat) × Option LoadedModel
  | [] => ([], st)
  | e :: es =>
    let r := transcribeAudio st le e
    let rest := runJobs le r.model es
    (r.attempts :: rest.1, rest.2)

/- ## Job scheduler: main.py -/

/-- JobStatus enum (main.py lines 30-34). -/
inductive JobStatus
  | pending
  | processing
  | completed
  | failed
  deriving DecidableEq

/-- One record of the jobs dict (main.py lines 106-116), restricted to the
fields the claims are about; filename, file_path, format, file_size,
created_at, progress and assigned_gpu bear on no claim and are elided. -/
structure Job where
  status : JobStatus
  result : Option Payload
  error : Option String
  deriving DecidableEq

/-- The jobs dict, as an association list keyed by job id.  uuid4 keys are
never duplicated, so first-match lookup is Python dict lookup. -/
abbrev Registry := List (String × Job)

/-- Python dict lookup jobs[id] (first match; raising KeyError is the none
case at each use site). -/
def lookupJob (r : Registry) (id : String) : Option Job :=
  match r with
  | [] => none
  | (k, j) :: rest => if k = id then some j else lookupJob rest id

/-- In-place mutation of the record held under id, as by
jobs[id][field] = v; a missing id mutates nothing (the Python code raises
KeyError there, and a write through a previously captured reference to a
deleted record mutates an object no longer reachable from the dict). -/
def updateJob (r : Registry) (id : String) (f : Job → Job) : Registry :=
  match r with
  | [] => []
  | (k, j) :: rest => if k = id then (k, f j) :: rest else (k, j) :: updateJob rest id f

/-- del jobs[id] (main.py line 255). -/
def removeJob (r : Registry) (id : String) : Registry :=
  match r with
  | [] => []
  | (k, j) :: rest => if k = id then removeJob rest id else (k, j) :: removeJob rest id

/-- Removal of one finished task handle from the dispatched-task list. -/
def removeFirst (l : List String) (id : String) : List String :=
  match l with
  | [] => []
  | x :: xs => if x = id then xs else x :: removeFirst xs id

/-- HTTP-level failures of the endpoints: 404 Job not found and 400 (wrong
state for the operation). -/
inductive ApiError
  | notFound
  | invalidState
  deriving DecidableEq

/-- Scheduler state: the jobs dict, the ids with a dispatched
process_transcription task whose terminal write has not yet run, and the
ghost set of ids ever issued by uuid4 (identifiers are globally unique for
the process lifetime, so an id is never reissued). -/
structure Sys where
  reg : Registry
  tasks : List String
  used : List String
  deriving DecidableEq

/-- The empty scheduler at startup (jobs = {}). -/
def initSys : Sys := ⟨[], [], []⟩

/-- The registry effect of a successful /upload (main.py lines 106-116): a
fresh Pending record with result None and error None.  The format and
file-size validation preceding the insertion bears on no claim and is
elided; the freshness of the id is a precondition of the upload step. -/
def uploadJob (s : Sys) (id : String) : Sys :=
  { s with
    reg := (id, ⟨JobStatus.pending, none, none⟩) :: s.reg
    used := id :: s.used }

/-- POST /transcribe, the start operation (main.py lines 132-146): 404 if
the id is unknown, 400 if the status is not PENDING; otherwise the status is
set to PROCESSING and the background task is dispatched with create_task.
The handler body has no await, so it runs atomically on the event loop. -/
def startJob (s : Sys) (id : String) : Except ApiError Sys :=
  match lookupJob s.reg id with
  | none => .error .notFound
  | some j =>
    if j.status = .pending then
      .ok { s with
            reg := updateJob s.reg id (fun j0 => { j0 with status := .processing })
            tasks := id :: s.tasks }
    else .error .invalidState

/-- GET /status (main.py lines 148-165), restricted to the status field of
the snapshot. -/
def getStatus (s : Sys) (id : String) : Except ApiError JobStatus :=
  match lookupJob s.reg id with
  | none => .error .notFound
  | some j => .ok j.status

/-- The three response shapes of GET /result (main.py lines 167-191). -/
inductive ResultView
  | completedView (r : Option Payload)
  | failedView (e : Option String)
  | inProgress (st : JobStatus)
  deriving DecidableEq

/-- GET /result (main.py lines 167-191). -/
def getResult (s : Sys) (id : String) : Except ApiError ResultView :=
  match lookupJob s.reg id with
  | none => .error .notFound
  | some j =>
    if j.status = .completed then .ok (.completedView j.result)
    else if j.status = .failed then .ok (.failedView j.error)
    else .ok (.inProgress j.status)

/-- DELETE /job (main.py lines 241-256): 404 if unknown, otherwise the entry
is removed (the backing file removal bears on no claim). -/
def deleteJob (s : Sys) (id : String) : Except ApiError Sys :=
  match lookupJob s.reg id with
  | none => .error .notFound
  | some _ => .ok { s with reg := removeJob s.reg id }

/-- The success terminal write of process_transcription (main.py lines
278-280): job result then job status COMPLETED, with no await between the
two statements, hence one atomic step.  The writes go through the dict
object captured at line 263, so a record deleted meanwhile is mutated as an
orphan and the registry is unchanged (updateJob of an absent id). -/
def finishSuccess (s : Sys) (id : String) (p : Payload) : Sys :=
  { s with
    reg := updateJob s.reg id (fun j => { j with result := some p, status := .completed })
    tasks := removeFirst s.tasks id }

/-- The failure terminal write of process_transcription (main.py lines
282-285): status FAILED then the error string, again with no await between;
jobs[job_id] on a deleted id raises KeyError and writes nothing. -/
def finishFailure (s : Sys) (id : String) (msg : String) : Sys :=
  { s with
    reg := updateJob s.reg id (fun j => { j with status := .failed, error := some msg })
    tasks := removeFirst s.tasks id }

/-- One atomic step of the scheduler, at await granularity: an upload of a
fresh uuid, a successful start, a successful delete, or the terminal write
of a dispatched task (with an arbitrary payload or error message, an
over-approximation of what process_transcription can produce). -/
inductive Step : Sys → Sys → Prop
  | upload (s : Sys) (id : String) : id ∉ s.used → Step s (uploadJob s id)
  | start (s : Sys) (id : String) (s' : Sys) : startJob s id = .ok s' → Step s s'
  | del (s : Sys) (id : String) (s' : Sys) : deleteJob s id = .ok s' → Step s s'
  | finishOk (s : Sys) (id : String) (p : Payload) :
      id ∈ s.tasks → Step s (finishSuccess s id p)
  | finishErr (s : Sys) (id : String) (msg : String) :
      id ∈ s.tasks → Step s (finishFailure s id msg)

/-- States reachable from process startup. -/
inductive Reachable : Sys → Prop
  | init : Reachable initSys
  | step {s s' : Sys} : Reachable s → Step s s' → Reachable s'

/-- Step sequences from a given state. -/
inductive StepsFrom : Sys → Sys → Prop
  | refl (s : Sys) : StepsFrom s s
  | tail {s t u : Sys} : StepsFrom s t → Step t u → StepsFrom s u

/-- Whether an endpoint call was rejected. -/
def isErr {ε α : Type} : Except ε α → Bool
  | .error _ => true
  | .ok _ => false

/-- The result/error shape the spec ties to each status: neither field set
while Pending or Processing, exactly the result set when Completed, exactly
the error set when Failed. -/
def shapeOk (j : Job) : Prop :=
  (j.status = .pending → j.result = none ∧ j.error = none) ∧
  (j.status = .processing → j.result = none ∧ j.error = none) ∧
  (j.status = .completed → j.result.isSome ∧ j.error = none) ∧
  (j.status = .failed → j.result = none ∧ j.error.isSome)

/-- The inductive invariant of the scheduler: the dispatched-task list has
no duplicate handle and only ever-issued ids; every registry record has an
ever-issued id, the result/error shape of its status, and is Processing
whenever its task is still in flight. -/
def Inv (s : Sys) : Prop :=
  s.tasks.Nodup ∧
  (∀ id, id ∈ s.tasks → id ∈ s.used) ∧
  (∀ id j, lookupJob s.reg id = some j →
    id ∈ s.used ∧ shapeOk j ∧ (id ∈ s.tasks → j.status = .processing))

/-- After a successful start of id, the record under id is never Pending
again (and id stays issued), so no second start of id can succeed. -/
def NeverPending (s : Sys) (id : String) : Prop :=
  id ∈ s.used ∧ ∀ j, lookupJob s.reg id = some j → j.status ≠ .pending

/- ## The call site main.py line 276 -/

/-- The named parameters of CanaryTranscriptionService.transcribe_audio
besides self (transcription_service.py line 224). -/
def transcribeAudioParams : List String := ["audio_path"]

/-- The keyword arguments passed at the call site main.py line 276. -/
def transcribeCallKwargs : List String := ["job_id"]

/-- The TypeError Python raises when binding that call. -/
def typeErrorMsg : String :=
  "TypeError: transcribe_audio got an unexpected keyword argument job_id"

/-- The call transcription_service.transcribe_audio(audio_path,
job_id=job_id) as written at main.py line 276: Python binds the keyword
arguments against the method signature and raises TypeError when one is not
a parameter, before the coroutine body runs. -/
def callTranscribeAudio (st : Option LoadedModel) (le : LoadEnv) (env : JobEnv) :
    Except String ServiceRun :=
  if transcribeCallKwargs.all (fun k => transcribeAudioParams.contains k) then
    .ok (transcribeAudio st le env)
  else .error typeErrorMsg

/-- Task outcome of process_transcription for one job. -/
inductive TaskOutcome
  | success (p : Payload)
  | failure (msg : String)
  deriving DecidableEq

/-- process_transcription (main.py lines 258-285) as written: the awaited
call of line 276 raises before the service runs (so the model state is
untouched), the handler marks the job FAILED with str(e). -/
def processTranscription (st : Option LoadedModel) (le : LoadEnv) (env : JobEnv) :
    TaskOutcome × Option LoadedModel :=
  match callTranscribeAudio st le env with
  | .ok r => (.success r.payload, r.model)
  | .error e => (.failure e, st)

/-- process_transcription with the one call-site slip repaired: the call
passes only audio_path, matching the signature, so the service actually
runs.  transcribe_audio returns on every path (its handler converts every
exception into an error payload), so the task always takes the success
branch and marks the job COMPLETED. -/
def processTranscriptionRepairedCall (st : Option LoadedModel) (le : LoadEnv)
    (env : JobEnv) : TaskOutcome × Option LoadedModel :=
  let r := transcribeAudio st le env
  (.success r.payload, r.model)

/-- Registry effect of one task run as written. -/
def runTask (s : Sys) (id : String) (st : Option LoadedModel) (le : LoadEnv)
    (env : JobEnv) : Sys × Option LoadedModel :=
  match processTranscription st le env with
  | (.success p, m) => (finishSuccess s id p, m)
  | (.failure msg, m) => (finishFailure s id msg, m)

/-- Registry effect of one task run with the call-site slip repaired. -/
def runTaskRepaired (s : Sys) (id : String) (st : Option LoadedModel)
    (le : LoadEnv) (env : JobEnv) : Sys × Option LoadedModel :=
  match processTranscriptionRepairedCall st le env with
  | (.success p, m) => (finishSuccess s id p, m)
  | (.failure msg, m) => (finishFailure s id msg, m)

/- ## Concrete states and environments used by the theorems -/

/-- A development machine: neither NeMo nor transformers loads, so the load
chain installs the mock stub. -/
def devLoadEnv : LoadEnv := ⟨false, false⟩

/-- A machine where the NeMo load succeeds. -/
def nemoLoadEnv : LoadEnv := ⟨true, true⟩

/-- Scenario A input: a valid 2-second 16 kHz mono WAV; librosa decodes
32000 samples directly, the canonical write succeeds, and the processed file
reloads as 32000 samples. -/
def validWavEnv : JobEnv :=
  { pre :=
    { pathExists := true
      librosaDirect := some 32000
      pydubImports := true
      pydubExports := true
      librosaOnPydubTemp := some 32000
      ffmpeg := .okFile
      librosaOnFfmpegTemp := some 32000
      sfWrite := .ok }
    infer := { realTranscribe := none, librosaOnProcessed := some 32000 }
    isM4a := false }

/-- An input no strategy can decode: the direct librosa load raises, pydub
imports but its conversion fails, and ffmpeg exits nonzero without leaving
an output file. -/
def unreadableEnv : JobEnv :=
  { pre :=
    { pathExists := true
      librosaDirect := none
      pydubImports := true
      pydubExports := false
      librosaOnPydubTemp := none
      ffmpeg := .failNoFile
      librosaOnFfmpegTemp := none
      sfWrite := .ok }
    infer := { realTranscribe := none, librosaOnProcessed := none }
    isM4a := false }

/-- An input where the chain reaches the ffmpeg last resort, which exits
nonzero after creating its _temp.wav output. -/
def ffmpegLeakEnv : JobEnv :=
  { pre :=
    { pathExists := true
      librosaDirect := none
      pydubImports := true
      pydubExports := false
      librosaOnPydubTemp := none
      ffmpeg := .failFile
      librosaOnFfmpegTemp := none
      sfWrite := .ok }
    infer := { realTranscribe := none, librosaOnProcessed := none }
    isM4a := false }

/-- A job on a machine where the NeMo model loads and preprocessing
succeeds, but the model.transcribe call raises: the inference failure falls
back to the mock path, which succeeds. -/
def inferenceFailEnv : JobEnv :=
  { pre :=
    { pathExists := true
      librosaDirect := some 32000
      pydubImports := true
      pydubExports := true
      librosaOnPydubTemp := some 32000
      ffmpeg := .okFile
      librosaOnFfmpegTemp := some 32000
      sfWrite := .ok }
    infer := { realTranscribe := none, librosaOnProcessed := some 32000 }
    isM4a := false }

/-- The state after uploading job j1 at startup. -/
def wSys1 : Sys := uploadJob initSys "j1"

/-- The state after starting job j1. -/
def wSys2 : Sys :=
  ⟨[("j1", ⟨JobStatus.processing, none, none⟩)], ["j1"], ["j1"]⟩

/-- The state after deleting job j1 mid-Processing. -/
def wSys3 : Sys := ⟨[], ["j1"], ["j1"]⟩

/- ## Theorems -/

/-- C6 counterexample: with two enumerated devices of which device 0 is marked
not live, get_device_for_job with job hash 0 still returns index 0, whose
liveness flag is down.  The modulo set is all enumerated devices; liveness is
not consulted (hardware_config.py lines 295-304 never read is_available). -/
theorem c6_down_device_returned :
    getDeviceForJob [gpuDown, gpuUp] 0 = 0 ∧
    (([gpuDown, gpuUp].get? (getDeviceForJob [gpuDown, gpuUp] 0).toNat).map
        GPUInfo.is_available) = some false := by
  decide

/-- C6 amended: get_device_for_job ignores the liveness flag entirely — its
result is unchanged when every device is forcibly marked live, because the
function only reads the length of the device list (and the job hash). -/
theorem c6_liveness_ignored (gpus : List GPUInfo) (h : Int) :
    getDeviceForJob (gpus.map fun g => { g with is_available := true }) h =
      getDeviceForJob gpus h := by
  simp [getDeviceForJob]

/-- C10: get_device_for_job returns the CPU sentinel -1 exactly when zero
devices are enumerated; otherwise its result lies in [0, number of devices),
even for negative hash values (Python % with positive modulus is
non-negative, as is Int.emod). -/
theorem c10_device_range (gpus : List GPUInfo) (h : Int) :
    (gpus.length = 0 → getDeviceForJob gpus h = -1) ∧
    (gpus.length ≠ 0 →
      0 ≤ getDeviceForJob gpus h ∧ getDeviceForJob gpus h < (gpus.length : Int)) ∧
    (getDeviceForJob gpus h = -1 ↔ gpus.length = 0) := by
  unfold getDeviceForJob
  by_cases h0 : gpus.length = 0
  · simp [h0]
  · by_cases h1 : gpus.length = 1
    · refine ⟨fun hc => absurd hc h0, fun _ => ?_, ?_⟩
      · simp [h0, h1]
      · simp [h0, h1]
    · have hlen : (0 : Int) < (gpus.length : Int) := by
        have : 0 < gpus.length := Nat.pos_of_ne_zero h0
        exact_mod_cast this
      have hnonneg : 0 ≤ h % (gpus.length : Int) :=
        Int.emod_nonneg h (by exact_mod_cast h0)
      have hlt : h % (gpus.length : Int) < (gpus.length : Int) :=
        Int.emod_lt_of_pos h hlen
      refine ⟨fun hc => absurd hc h0, fun _ => ?_, ?_⟩
      · simpa [h0, h1] using ⟨hnonneg, hlt⟩
      · constructor
        · intro hc
          rw [if_neg h0, if_neg h1] at hc
          omega
        · intro hc
          exact absurd hc h0

/-- C10 witness: two devices and the negative hash -5 give a result in
[0, 2). -/
theorem c10_device_range_witness :
    0 ≤ getDeviceForJob [gpuDown, gpuUp] (-5) ∧
    getDeviceForJob [gpuDown, gpuUp] (-5) < (([gpuDown, gpuUp] : List GPUInfo).length : Int) :=
  (c10_device_range [gpuDown, gpuUp] (-5)).2.1 (by decide)

/-- After any transcribe_audio call the service model field is set: either
the model the call started with, or the result of the load chain (which
installs the mock stub when everything else fails). -/
lemma transcribeAudio_model (st : Option LoadedModel) (le : LoadEnv) (env : JobEnv) :
    (transcribeAudio st le env).model = some (modelAfter st le) := rfl

/-- A call that starts with a loaded model attempts no load tier. -/
lemma transcribeAudio_attempts_loaded (m : LoadedModel) (le : LoadEnv) (env : JobEnv) :
    (transcribeAudio (some m) le env).attempts = [] := rfl

/-- Once the model field is set, a whole job sequence attempts no load tier
and leaves the model unchanged. -/
lemma runJobs_loaded (es : List JobEnv) (le : LoadEnv) (m : LoadedModel) :
    runJobs le (some m) es = (es.map fun _ => [], some m) := by
  induction es with
  | nil => rfl
  | cons e es ih =>
    have h1 : (transcribeAudio (some m) le e).model = some m := rfl
    have h2 : (transcribeAudio (some m) le e).attempts = [] := rfl
    simp [runJobs, h1, h2, ih]

/-- C5: across one process (one fixed load environment), only the first job
runs the load chain; every later job attempts no load tier at all, so in
particular a tier that failed during the first job is never re-attempted —
the outcome is cached in the model field, which the load chain always sets
(to the mock stub when every real tier fails). -/
theorem c5_load_memoized (le : LoadEnv) (e : JobEnv) (es : List JobEnv) :
    (runJobs le none (e :: es)).1 = loadAttempts le :: es.map (fun _ => []) := by
  have h1 : (transcribeAudio none le e).model = some (loadResult le) := rfl
  have h2 : (transcribeAudio none le e).attempts = loadAttempts le := rfl
  simp [runJobs, h1, h2, runJobs_loaded]

/-- C1: Scenario A as written.  Starting from the started job j1 and a valid
2-second 16 kHz mono WAV, the background task fails the job with the
TypeError raised by the call-site keyword argument job_id (main.py line 276
against the signature at transcription_service.py line 224), so get_result
returns the failed view — not a Completed result.  With only that call-site
slip repaired the same input completes with duration exactly 2 seconds and a
non-null model name, which is what the claim describes. -/
theorem c1_scenario_a_divergence :
    getResult (runTask wSys2 "j1" none devLoadEnv validWavEnv).1 "j1"
      = .ok (.failedView (some typeErrorMsg)) ∧
    lookupJob (runTask wSys2 "j1" none devLoadEnv validWavEnv).1.reg "j1"
      = some ⟨.failed, none, some typeErrorMsg⟩ ∧
    getResult (runTaskRepaired wSys2 "j1" none devLoadEnv validWavEnv).1 "j1"
      = .ok (.completedView (some (mockSuccessPayload (((32000 : Nat) : Rat) / 16000)))) ∧
    ((32000 : Nat) : Rat) / 16000 = 2 ∧
    (mockSuccessPayload 2).duration = 2 ∧
    (mockSuccessPayload 2).model = some "mock-canary-qwen-2.5b" :=
  ⟨rfl, rfl, rfl, by norm_num, rfl, rfl⟩

/-- C2: a job whose audio no normalization strategy can decode.  As written
the job is marked Failed, but with the unrelated call-site TypeError, before
normalization even runs.  With the call-site slip repaired, transcribe_audio
catches the normalization failure and returns it as an ordinary payload, so
process_transcription marks the job Completed with the failure inside the
result field and with error = None — the opposite of the claimed
Failed-with-error outcome. -/
theorem c2_unreadable_audio_divergence :
    (preprocessAudio unreadableEnv.pre).processed = none ∧
    lookupJob (runTask wSys2 "j1" none devLoadEnv unreadableEnv).1.reg "j1"
      = some ⟨.failed, none, some typeErrorMsg⟩ ∧
    lookupJob (runTaskRepaired wSys2 "j1" none devLoadEnv unreadableEnv).1.reg "j1"
      = some ⟨.completed, some ⟨"", 0, 0, none, some (preprocessFailMsg false)⟩, none⟩ ∧
    getResult (runTaskRepaired wSys2 "j1" none devLoadEnv unreadableEnv).1 "j1"
      = .ok (.completedView (some ⟨"", 0, 0, none, some (preprocessFailMsg false)⟩)) :=
  ⟨rfl, rfl, rfl, rfl⟩

/-- C7: when the chain falls through to the ffmpeg last resort and that run
exits nonzero after creating its _temp.wav output, preprocess_audio returns
None without deleting the file (transcription_service.py lines 176-183, and
likewise on a timeout via the handler at line 185), so the intermediate is
still on disk when the job reaches its terminal state. -/
theorem c7_temp_file_left :
    (transcribeAudio none devLoadEnv ffmpegLeakEnv).tempLeft = true ∧
    (transcribeAudio none devLoadEnv ffmpegLeakEnv).payload.errMsg.isSome = true ∧
    lookupJob (runTaskRepaired wSys2 "j1" none devLoadEnv ffmpegLeakEnv).1.reg "j1"
      = some ⟨.completed, some (transcribeAudio none devLoadEnv ffmpegLeakEnv).payload, none⟩ :=
  ⟨rfl, rfl, rfl⟩

/-- Every error payload the mock path can return carries confidence 0 and
duration 0. -/
lemma mockRun_shape (env : JobEnv) :
    (mockRun env).errMsg.isSome →
      (mockRun env).confidence = 0 ∧ (mockRun env).duration = 0 := by
  unfold mockRun mockSuccessPayload
  cases env.infer.librosaOnProcessed <;> simp

/-- Every error payload the real path can return comes from the mock
fallback and carries confidence 0 and duration 0. -/
lemma realRun_shape (m : LoadedModel) (env : JobEnv) :
    (realRun m env).errMsg.isSome →
      (realRun m env).confidence = 0 ∧ (realRun m env).duration = 0 := by
  unfold realRun
  cases h : env.infer.librosaOnProcessed with
  | none => exact mockRun_shape env
  | some n =>
    cases m <;> cases env.infer.realTranscribe <;>
      first
        | exact mockRun_shape env
        | simp

/-- C9 counterexample: with the NeMo model loaded and valid audio, an
inference failure (model.transcribe raises) is not converted into an error
payload: the call falls back to mock transcription and returns a payload
with no error field, confidence 0.85 and a non-empty transcription — against
the claim that every internal failure yields an error payload with empty
transcription, confidence 0.0 and duration 0.0. -/
theorem c9_inference_failure_masked :
    inferenceFailEnv.infer.realTranscribe = none ∧
    (transcribeAudio none nemoLoadEnv inferenceFailEnv).payload.errMsg = none ∧
    (transcribeAudio none nemoLoadEnv inferenceFailEnv).payload.confidence = 85 / 100 ∧
    (transcribeAudio none nemoLoadEnv inferenceFailEnv).payload.transcription ≠ "" := by
  refine ⟨rfl, rfl, rfl, ?_⟩
  decide

/-- C9 amended: transcribe_audio returns a payload on every path (it is a
total function of the modelled environment); a preprocessing failure yields
exactly the error payload with empty transcription, confidence 0.0 and
duration 0.0; and every payload that does carry an error message has
confidence 0.0 and duration 0.0.  Load failures never surface (the loader
falls back to the mock stub) and inference failures fall back to mock
transcription, surfacing an error only when the mock fallback itself
fails. -/
theorem c9_error_payload_shape (st : Option LoadedModel) (le : LoadEnv) (env : JobEnv) :
    ((preprocessAudio env.pre).processed = none →
      (transcribeAudio st le env).payload =
        ⟨"", 0, 0, none, some (preprocessFailMsg env.isM4a)⟩) ∧
    ((transcribeAudio st le env).payload.errMsg.isSome →
      (transcribeAudio st le env).payload.confidence = 0 ∧
      (transcribeAudio st le env).payload.duration = 0) := by
  constructor
  · intro h
    simp [transcribeAudio, h]
  · intro h
    rcases hp : (preprocessAudio env.pre).processed with _ | n
    · simp [transcribeAudio, hp]
    · have hred : (transcribeAudio st le env).payload =
          (if modelAfter st le = LoadedModel.mock then mockRun env
           else realRun (modelAfter st le) env) := by
        simp [transcribeAudio, hp]
      rw [hred] at h ⊢
      by_cases hm : modelAfter st le = LoadedModel.mock
      · rw [if_pos hm] at h ⊢
        exact mockRun_shape env h
      · rw [if_neg hm] at h ⊢
        exact realRun_shape _ env h


/-- C9 witness: on the input no strategy decodes, preprocessing fails and
the returned payload is exactly the error payload. -/
theorem c9_error_payload_shape_witness :
    (preprocessAudio unreadableEnv.pre).processed = none ∧
    (transcribeAudio none devLoadEnv unreadableEnv).payload =
      ⟨"", 0, 0, none, some (preprocessFailMsg false)⟩ :=
  ⟨rfl, (c9_error_payload_shape none devLoadEnv unreadableEnv).1 rfl⟩

/-- Lookup after an in-place update: the updated id maps to the mutated
record, every other id is untouched. -/
lemma lookup_update (r : Registry) (id : String) (f : Job → Job) (id' : String) :
    lookupJob (updateJob r id f) id' =
      if id = id' then (lookupJob r id).map f else lookupJob r id' := by
  induction r with
  | nil => simp [updateJob, lookupJob]
  | cons hd tl ih =>
    obtain ⟨k, j⟩ := hd
    by_cases hk : k = id <;> by_cases h1 : id = id' <;>
      simp_all [updateJob, lookupJob]

/-- Lookup after a deletion: the deleted id is gone, every other id is
untouched. -/
lemma lookup_remove (r : Registry) (id id' : String) :
    lookupJob (removeJob r id) id' =
      if id = id' then none else lookupJob r id' := by
  induction r with
  | nil => simp [removeJob, lookupJob]
  | cons hd tl ih =>
    obtain ⟨k, j⟩ := hd
    by_cases hk : k = id <;> by_cases h1 : id = id' <;>
      simp_all [removeJob, lookupJob]

/-- Updating an id the dict does not hold mutates nothing. -/
lemma update_absent (r : Registry) (id : String) (f : Job → Job)
    (h : lookupJob r id = none) : updateJob r id f = r := by
  induction r with
  | nil => rfl
  | cons hd tl ih =>
    obtain ⟨k, j⟩ := hd
    by_cases hk : k = id
    · simp [lookupJob, hk] at h
    · simp only [lookupJob, hk, if_neg] at h
      simp [updateJob, hk, ih h]

lemma removeFirst_subset {l : List String} {id a : String}
    (h : a ∈ removeFirst l id) : a ∈ l := by
  induction l with
  | nil => simp [removeFirst] at h
  | cons x xs ih =>
    by_cases hx : x = id
    · simp only [removeFirst, if_pos hx] at h
      exact List.mem_cons_of_mem _ h
    · simp only [removeFirst, if_neg hx] at h
      rcases List.mem_cons.mp h with rfl | h'
      · exact List.mem_cons_self _ _
      · exact List.mem_cons_of_mem _ (ih h')

lemma nodup_removeFirst {l : List String} (id : String) (h : l.Nodup) :
    (removeFirst l id).Nodup := by
  induction l with
  | nil => exact h
  | cons x xs ih =>
    rw [List.nodup_cons] at h
    by_cases hx : x = id
    · simpa [removeFirst, hx] using h.2
    · rw [removeFirst, if_neg hx, List.nodup_cons]
      exact ⟨fun hm => h.1 (removeFirst_subset hm), ih h.2⟩

lemma not_mem_removeFirst_self {l : List String} (id : String) (h : l.Nodup) :
    id ∉ removeFirst l id := by
  induction l with
  | nil => simp [removeFirst]
  | cons x xs ih =>
    rw [List.nodup_cons] at h
    by_cases hx : x = id
    · rw [removeFirst, if_pos hx]
      exact hx ▸ h.1
    · rw [removeFirst, if_neg hx]
      intro hm
      rcases List.mem_cons.mp hm with rfl | hm'
      · exact hx rfl
      · exact ih h.2 hm'

/-- Inversion of a successful start. -/
lemma startJob_ok {s : Sys} {id : String} {s' : Sys}
    (h : startJob s id = .ok s') :
    ∃ j, lookupJob s.reg id = some j ∧ j.status = .pending ∧
      s' = { s with
             reg := updateJob s.reg id (fun j0 => { j0 with status := .processing })
             tasks := id :: s.tasks } := by
  unfold startJob at h
  split at h
  · exact absurd h (by simp)
  · rename_i j hl
    split at h
    · rename_i hp
      cases h
      exact ⟨j, hl, hp, rfl⟩
    · exact absurd h (by simp)

/-- Inversion of a successful delete. -/
lemma deleteJob_ok {s : Sys} {id : String} {s' : Sys}
    (h : deleteJob s id = .ok s') :
    ∃ j, lookupJob s.reg id = some j ∧
      s' = { s with reg := removeJob s.reg id } := by
  unfold deleteJob at h
  split at h
  · exact absurd h (by simp)
  · rename_i j hl
    cases h
    exact ⟨j, hl, rfl⟩

lemma inv_init : Inv initSys := by
  refine ⟨List.nodup_nil, ?_, ?_⟩
  · intro id h
    simp [initSys] at h
  · intro id j h
    simp [initSys, lookupJob] at h

lemma inv_step {s s' : Sys} (hinv : Inv s) (hst : Step s s') : Inv s' := by
  obtain ⟨hnd, hsub, hreg⟩ := hinv
  cases hst with
  | upload id hfresh =>
    refine ⟨hnd, ?_, ?_⟩
    · intro id' h'
      exact List.mem_cons_of_mem _ (hsub id' h')
    · intro id' j hl
      have hl' : (if id = id' then some (⟨JobStatus.pending, none, none⟩ : Job)
          else lookupJob s.reg id') = some j := hl
      by_cases he : id = id'
      · rw [if_pos he] at hl'
        injection hl' with hj
        subst he
        subst hj
        refine ⟨List.mem_cons_self _ _, ?_, ?_⟩
        · refine ⟨fun _ => ⟨rfl, rfl⟩, ?_, ?_, ?_⟩ <;>
            { intro hstat; exact absurd hstat (by decide) }
        · intro hmem
          exact absurd (hsub id hmem) hfresh
      · rw [if_neg he] at hl'
        obtain ⟨hu, hsh, hts⟩ := hreg id' j hl'
        exact ⟨List.mem_cons_of_mem _ hu, hsh, hts⟩
  | start id s2 h =>
    obtain ⟨j0, hl0, hp0, rfl⟩ := startJob_ok h
    obtain ⟨hu0, hsh0, hts0⟩ := hreg id j0 hl0
    have hnotin : id ∉ s.tasks := by
      intro hmem
      have hh := hts0 hmem
      rw [hp0] at hh
      exact absurd hh (by decide)
    refine ⟨List.nodup_cons.mpr ⟨hnotin, hnd⟩, ?_, ?_⟩
    · intro id' h'
      rcases List.mem_cons.mp h' with rfl | hmem
      · exact hu0
      · exact hsub id' hmem
    · intro id' j hl
      have hl' : lookupJob
          (updateJob s.reg id (fun j0 => { j0 with status := JobStatus.processing })) id'
          = some j := hl
      rw [lookup_update] at hl'
      by_cases he : id = id'
      · subst he
        rw [if_pos rfl, hl0] at hl'
        injection hl' with hj
        subst hj
        obtain ⟨hres, herr⟩ := hsh0.1 hp0
        refine ⟨hu0, ?_, fun _ => rfl⟩
        refine ⟨?_, fun _ => ⟨hres, herr⟩, ?_, ?_⟩ <;>
          { intro hstat; exact JobStatus.noConfusion hstat }
      · rw [if_neg he] at hl'
        obtain ⟨hu, hsh, hts⟩ := hreg id' j hl'
        refine ⟨hu, hsh, ?_⟩
        intro hmem
        rcases List.mem_cons.mp hmem with he' | hmem'
        · exact absurd he'.symm he
        · exact hts hmem'
  | del id s2 h =>
    obtain ⟨j0, hl0, rfl⟩ := deleteJob_ok h
    refine ⟨hnd, hsub, ?_⟩
    intro id' j hl
    have hl' : lookupJob (removeJob s.reg id) id' = some j := hl
    rw [lookup_remove] at hl'
    by_cases he : id = id'
    · rw [if_pos he] at hl'
      exact absurd hl' (by simp)
    · rw [if_neg he] at hl'
      exact hreg id' j hl'
  | finishOk id p hmem =>
    refine ⟨nodup_removeFirst id hnd, ?_, ?_⟩
    · intro id' h'
      exact hsub id' (removeFirst_subset h')
    · intro id' j hl
      have hl' : lookupJob
          (updateJob s.reg id
            (fun j0 => { j0 with result := some p, status := JobStatus.completed })) id'
          = some j := hl
      rw [lookup_update] at hl'
      by_cases he : id = id'
      · subst he
        cases hll : lookupJob s.reg id with
        | none =>
          rw [if_pos rfl, hll] at hl'
          exact Option.noConfusion hl'
        | some j0 =>
          rw [if_pos rfl, hll] at hl'
          injection hl' with hj
          subst hj
          obtain ⟨hu0, hsh0, hts0⟩ := hreg id j0 hll
          have hproc := hts0 hmem
          obtain ⟨hres, herr⟩ := hsh0.2.1 hproc
          refine ⟨hu0, ?_, ?_⟩
          · refine ⟨?_, ?_, fun _ => ⟨rfl, herr⟩, ?_⟩ <;>
              { intro hstat; exact JobStatus.noConfusion hstat }
          · intro hmem'
            exact absurd hmem' (not_mem_removeFirst_self id hnd)
      · rw [if_neg he] at hl'
        obtain ⟨hu, hsh, hts⟩ := hreg id' j hl'
        exact ⟨hu, hsh, fun hm => hts (removeFirst_subset hm)⟩
  | finishErr id msg hmem =>
    refine ⟨nodup_removeFirst id hnd, ?_, ?_⟩
    · intro id' h'
      exact hsub id' (removeFirst_subset h')
    · intro id' j hl
      have hl' : lookupJob
          (updateJob s.reg id
            (fun j0 => { j0 with status := JobStatus.failed, error := some msg })) id'
          = some j := hl
      rw [lookup_update] at hl'
      by_cases he : id = id'
      · subst he
        cases hll : lookupJob s.reg id with
        | none =>
          rw [if_pos rfl, hll] at hl'
          exact Option.noConfusion hl'
        | some j0 =>
          rw [if_pos rfl, hll] at hl'
          injection hl' with hj
          subst hj
          obtain ⟨hu0, hsh0, hts0⟩ := hreg id j0 hll
          have hproc := hts0 hmem
          obtain ⟨hres, herr⟩ := hsh0.2.1 hproc
          refine ⟨hu0, ?_, ?_⟩
          · refine ⟨?_, ?_, ?_, fun _ => ⟨hres, rfl⟩⟩ <;>
              { intro hstat; exact JobStatus.noConfusion hstat }
          · intro hmem'
            exact absurd hmem' (not_mem_removeFirst_self id hnd)
      · rw [if_neg he] at hl'
        obtain ⟨hu, hsh, hts⟩ := hreg id' j hl'
        exact ⟨hu, hsh, fun hm => hts (removeFirst_subset hm)⟩

lemma reachable_inv {s : Sys} (h : Reachable s) : Inv s := by
  induction h with
  | init => exact inv_init
  | step _ hst ih => exact inv_step ih hst

/-- Every step preserves: the id is issued, and its record (if any) is no
longer Pending. -/
lemma step_neverPending {s s' : Sys} (tid : String) (hst : Step s s')
    (h : NeverPending s tid) : NeverPending s' tid := by
  obtain ⟨hu, hj⟩ := h
  cases hst with
  | upload id hfresh =>
    refine ⟨List.mem_cons_of_mem _ hu, ?_⟩
    intro j hl
    have hl' : (if id = tid then some (⟨JobStatus.pending, none, none⟩ : Job)
        else lookupJob s.reg tid) = some j := hl
    by_cases he : id = tid
    · exact absurd (he ▸ hu) hfresh
    · rw [if_neg he] at hl'
      exact hj j hl'
  | start id s2 h2 =>
    obtain ⟨j0, hl0, hp0, rfl⟩ := startJob_ok h2
    refine ⟨hu, ?_⟩
    intro j hl
    have hl' : lookupJob
        (updateJob s.reg id (fun j0 => { j0 with status := JobStatus.processing })) tid
        = some j := hl
    rw [lookup_update] at hl'
    by_cases he : id = tid
    · rw [if_pos he] at hl'
      cases hll : lookupJob s.reg id with
      | none =>
        rw [hll] at hl'
        exact Option.noConfusion hl'
      | some j1 =>
        rw [hll] at hl'
        injection hl' with hj1
        subst hj1
        intro hstat
        exact JobStatus.noConfusion hstat
    · rw [if_neg he] at hl'
      exact hj j hl'
  | del id s2 h2 =>
    obtain ⟨j0, hl0, rfl⟩ := deleteJob_ok h2
    refine ⟨hu, ?_⟩
    intro j hl
    have hl' : lookupJob (removeJob s.reg id) tid = some j := hl
    rw [lookup_remove] at hl'
    by_cases he : id = tid
    · rw [if_pos he] at hl'
      exact Option.noConfusion hl'
    · rw [if_neg he] at hl'
      exact hj j hl'
  | finishOk id p hmem =>
    refine ⟨hu, ?_⟩
    intro j hl
    have hl' : lookupJob
        (updateJob s.reg id
          (fun j0 => { j0 with result := some p, status := JobStatus.completed })) tid
        = some j := hl
    rw [lookup_update] at hl'
    by_cases he : id = tid
    · rw [if_pos he] at hl'
      cases hll : lookupJob s.reg id with
      | none =>
        rw [hll] at hl'
        exact Option.noConfusion hl'
      | some j1 =>
        rw [hll] at hl'
        injection hl' with hj1
        subst hj1
        intro hstat
        exact JobStatus.noConfusion hstat
    · rw [if_neg he] at hl'
      exact hj j hl'
  | finishErr id msg hmem =>
    refine ⟨hu, ?_⟩
    intro j hl
    have hl' : lookupJob
        (updateJob s.reg id
          (fun j0 => { j0 with status := JobStatus.failed, error := some msg })) tid
        = some j := hl
    rw [lookup_update] at hl'
    by_cases he : id = tid
    · rw [if_pos he] at hl'
      cases hll : lookupJob s.reg id with
      | none =>
        rw [hll] at hl'
        exact Option.noConfusion hl'
      | some j1 =>
        rw [hll] at hl'
        injection hl' with hj1
        subst hj1
        intro hstat
        exact JobStatus.noConfusion hstat
    · rw [if_neg he] at hl'
      exact hj j hl'

lemma stepsFrom_neverPending {s s' : Sys} (tid : String) (h : StepsFrom s s')
    (hn : NeverPending s tid) : NeverPending s' tid := by
  induction h with
  | refl => exact hn
  | tail hst hstep ih => exact step_neverPending tid hstep ih

/-- A start of an id whose record is absent or no longer Pending is
rejected. -/
lemma neverPending_start_fail {s : Sys} {tid : String} (h : NeverPending s tid) :
    isErr (startJob s tid) = true := by
  obtain ⟨-, hj⟩ := h
  cases hl : lookupJob s.reg tid with
  | none => simp [startJob, hl, isErr]
  | some j =>
    have hnp := hj j hl
    simp [startJob, hl, hnp, isErr]

/-- Once a deleted id is absent (and was ever issued), every step keeps it
absent: an upload cannot reuse the id, updates of other ids do not touch it,
and the terminal writes of a still-running task mutate nothing for an absent
id. -/
lemma step_absentPersists {s s' : Sys} (tid : String) (hst : Step s s')
    (hu : tid ∈ s.used) (habs : lookupJob s.reg tid = none) :
    tid ∈ s'.used ∧ lookupJob s'.reg tid = none := by
  cases hst with
  | upload id hfresh =>
    refine ⟨List.mem_cons_of_mem _ hu, ?_⟩
    have he : id ≠ tid := fun hh => hfresh (hh ▸ hu)
    show (if id = tid then some (⟨JobStatus.pending, none, none⟩ : Job)
        else lookupJob s.reg tid) = none
    rw [if_neg he, habs]
  | start id s2 h2 =>
    obtain ⟨j0, hl0, hp0, rfl⟩ := startJob_ok h2
    refine ⟨hu, ?_⟩
    show lookupJob
        (updateJob s.reg id (fun j0 => { j0 with status := JobStatus.processing })) tid
        = none
    rw [lookup_update]
    by_cases he : id = tid
    · rw [if_pos he, he, habs]
      rfl
    · rw [if_neg he, habs]
  | del id s2 h2 =>
    obtain ⟨j0, hl0, rfl⟩ := deleteJob_ok h2
    refine ⟨hu, ?_⟩
    show lookupJob (removeJob s.reg id) tid = none
    rw [lookup_remove]
    by_cases he : id = tid
    · rw [if_pos he]
    · rw [if_neg he, habs]
  | finishOk id p hmem =>
    refine ⟨hu, ?_⟩
    show lookupJob
        (updateJob s.reg id
          (fun j0 => { j0 with result := some p, status := JobStatus.completed })) tid
        = none
    rw [lookup_update]
    by_cases he : id = tid
    · rw [if_pos he, he, habs]
      rfl
    · rw [if_neg he, habs]
  | finishErr id msg hmem =>
    refine ⟨hu, ?_⟩
    show lookupJob
        (updateJob s.reg id
          (fun j0 => { j0 with status := JobStatus.failed, error := some msg })) tid
        = none
    rw [lookup_update]
    by_cases he : id = tid
    · rw [if_pos he, he, habs]
      rfl
    · rw [if_neg he, habs]

lemma stepsFrom_absent {s s' : Sys} (tid : String) (h : StepsFrom s s')
    (hu : tid ∈ s.used) (habs : lookupJob s.reg tid = none) :
    tid ∈ s'.used ∧ lookupJob s'.reg tid = none := by
  induction h with
  | refl => exact ⟨hu, habs⟩
  | tail hst hstep ih =>
    obtain ⟨hu', habs'⟩ := ih
    exact step_absentPersists tid hstep hu' habs'

/-- C3: in every reachable scheduler state, every registry record with a
terminal status (Completed or Failed) has exactly one of result and error
set, and every Pending or Processing record has neither set. -/
theorem c3_terminal_exactly_one (s : Sys) (hs : Reachable s) (id : String) (j : Job)
    (hl : lookupJob s.reg id = some j) :
    ((j.status = .completed ∨ j.status = .failed) →
      ((j.result.isSome ∧ j.error = none) ∨ (j.result = none ∧ j.error.isSome))) ∧
    ((j.status = .pending ∨ j.status = .processing) →
      j.result = none ∧ j.error = none) := by
  obtain ⟨-, -, hreg⟩ := reachable_inv hs
  obtain ⟨-, hsh, -⟩ := hreg id j hl
  obtain ⟨h1, h2, h3, h4⟩ := hsh
  refine ⟨?_, ?_⟩
  · rintro (hc | hc)
    · exact Or.inl (h3 hc)
    · exact Or.inr (h4 hc)
  · rintro (hc | hc)
    · exact h1 hc
    · exact h2 hc

/-- C3 witness: upload, start and fail job j1; its Failed record has exactly
the error set. -/
theorem c3_terminal_exactly_one_witness :
    ((⟨JobStatus.failed, none, some "boom"⟩ : Job).result.isSome ∧
      (⟨JobStatus.failed, none, some "boom"⟩ : Job).error = none) ∨
    ((⟨JobStatus.failed, none, some "boom"⟩ : Job).result = none ∧
      (⟨JobStatus.failed, none, some "boom"⟩ : Job).error.isSome) := by
  have hreach : Reachable (finishFailure wSys2 "j1" "boom") :=
    Reachable.step
      (Reachable.step
        (Reachable.step Reachable.init (Step.upload initSys "j1" (by simp [initSys])))
        (Step.start wSys1 "j1" wSys2 rfl))
      (Step.finishErr wSys2 "j1" "boom" (by simp [wSys2]))
  exact (c3_terminal_exactly_one _ hreach "j1" ⟨JobStatus.failed, none, some "boom"⟩
    rfl).1 (Or.inr rfl)

/-- C4: start of an unknown id is rejected with NotFound, start of a
non-Pending record with InvalidState, and after one successful start the id
is never Pending again, so every later start of it — in the same state or
after any further steps — is rejected: at most one start succeeds per job,
and a rejected start dispatches nothing (it returns an error without
touching the state). -/
theorem c4_start_single_dispatch (s : Sys) (id : String) (hs : Reachable s) :
    (lookupJob s.reg id = none → startJob s id = .error .notFound) ∧
    (∀ j, lookupJob s.reg id = some j → j.status ≠ .pending →
      startJob s id = .error .invalidState) ∧
    (∀ s', startJob s id = .ok s' → ∀ s'', StepsFrom s' s'' →
      isErr (startJob s'' id) = true) := by
  refine ⟨?_, ?_, ?_⟩
  · intro h
    simp [startJob, h]
  · intro j hl hnp
    simp [startJob, hl, hnp]
  · intro s' hok s'' hsteps
    obtain ⟨-, -, hreg⟩ := reachable_inv hs
    obtain ⟨j0, hl0, hp0, rfl⟩ := startJob_ok hok
    have hused : id ∈ s.used := (hreg id j0 hl0).1
    have hnp : NeverPending
        { s with
          reg := updateJob s.reg id (fun j0 => { j0 with status := JobStatus.processing })
          tasks := id :: s.tasks } id := by
      refine ⟨hused, ?_⟩
      intro j hl
      have hl' : lookupJob
          (updateJob s.reg id (fun j0 => { j0 with status := JobStatus.processing })) id
          = some j := hl
      rw [lookup_update, if_pos rfl, hl0] at hl'
      injection hl' with hj
      subst hj
      intro hstat
      exact JobStatus.noConfusion hstat
    exact neverPending_start_fail (stepsFrom_neverPending id hsteps hnp)

/-- C4 witness: the second start of the already started job j1 is
rejected. -/
theorem c4_start_single_dispatch_witness :
    isErr (startJob wSys2 "j1") = true := by
  have hreach : Reachable wSys1 :=
    Reachable.step Reachable.init (Step.upload initSys "j1" (by simp [initSys]))
  exact (c4_start_single_dispatch wSys1 "j1" hreach).2.2 wSys2 rfl wSys2
    (StepsFrom.refl wSys2)

/-- C8: deleting a job removes its registry entry: get_status then fails
with NotFound, the still-running task's terminal writes (success or failure)
leave the registry unchanged for the deleted id, and after any further steps
get_status for that id still fails with NotFound — the entry is never
recreated, because a dict write through the captured reference (or the
KeyError of the failure handler) cannot re-insert the key, and uuid
identifiers are never reissued. -/
theorem c8_delete_no_resurrection (s : Sys) (id : String) (s' : Sys)
    (hs : Reachable s) (hdel : deleteJob s id = .ok s') :
    getStatus s' id = .error .notFound ∧
    (∀ p, (finishSuccess s' id p).reg = s'.reg) ∧
    (∀ msg, (finishFailure s' id msg).reg = s'.reg) ∧
    (∀ s'', StepsFrom s' s'' → getStatus s'' id = .error .notFound) := by
  obtain ⟨-, -, hreg⟩ := reachable_inv hs
  obtain ⟨j0, hl0, rfl⟩ := deleteJob_ok hdel
  have hused : id ∈ s.used := (hreg id j0 hl0).1
  have habs : lookupJob (removeJob s.reg id) id = none := by
    rw [lookup_remove, if_pos rfl]
  refine ⟨?_, ?_, ?_, ?_⟩
  · simp [getStatus, habs]
  · intro p
    exact update_absent _ _ _ habs
  · intro msg
    exact update_absent _ _ _ habs
  · intro s'' hsteps
    have hh := stepsFrom_absent id hsteps hused habs
    simp [getStatus, hh.2]

/-- C8 witness: upload, start, then delete job j1 mid-Processing; get_status
fails with NotFound. -/
theorem c8_delete_no_resurrection_witness :
    getStatus wSys3 "j1" = .error .notFound := by
  have hreach : Reachable wSys2 :=
    Reachable.step
      (Reachable.step Reachable.init (Step.upload initSys "j1" (by simp [initSys])))
      (Step.start wSys1 "j1" wSys2 rfl)
  exact (c8_delete_no_resurrection wSys2 "j1" wSys3 hreach rfl).1

end CanarySTT
